import Mathlib

/-!
Verification of the Friends List API server (Express + JWT): a shallow
embedding of the credential store, login/token issuing, the authentication
middleware guarding the `/friends` path, and the friends CRUD router
(in-memory map keyed by email), together with theorems about the behaviour
documented in the specification.

The friends store is embedded as an association list `List (String × Friend)`,
mirroring the insertion-ordered JavaScript object `friends`; the handlers are
state-passing functions `Store → args → Store × Response`, where the returned
store models the post-request value of the global object (an early error
return leaves it unchanged, exactly as in the source).
-/

/-- A friend record: the value stored under an email key in the router's
in-memory `friends` object. -/
structure Friend where
  firstName : String
  lastName : String
  DOB : String
deriving Repr, DecidableEq

/-- The in-memory friends store: email keys paired with records, in insertion
order, mirroring the JavaScript object. -/
abbrev FriendStore := List (String × Friend)

/-- The initial contents of the `friends` object at module load. -/
def initFriends : FriendStore :=
  [("johnsmith@gmail.com", ⟨"John", "Doe", "22-12-1990"⟩),
   ("annasmith@gmail.com", ⟨"Anna", "Smith", "02-07-1983"⟩),
   ("peterjones@gmail.com", ⟨"Peter", "Jones", "21-03-1989"⟩)]

/-- Property access `friends[email]`: the record stored under `email`, if any. -/
def lookupFriend : FriendStore → String → Option Friend
  | [], _ => none
  | p :: t, email => if p.1 = email then some p.2 else lookupFriend t email

/-- Write `friends[email] = r` for a key already present: replaces the record
stored under `email`, keeping every entry's position. -/
def setStore (s : FriendStore) (email : String) (r : Friend) : FriendStore :=
  s.map (fun p => if p.1 = email then (p.1, r) else p)

/-- The effect of `delete friends[email]`: removes the entry with that key. -/
def removeFriend (s : FriendStore) (email : String) : FriendStore :=
  s.filter (fun p => !(p.1 == email))

/-- Response of `GET /friends`: the whole store plus `Object.keys(friends).length`. -/
structure ListAllResp where
  data : FriendStore
  count : Nat
deriving Repr, DecidableEq

/-- Handler of `GET /friends`: returns the current snapshot and key count. -/
def listAll (s : FriendStore) : ListAllResp :=
  ⟨s, (s.map Prod.fst).length⟩

/-- Response of `GET /friends/:email` (200 with data, or 404). -/
inductive GetResp where
  | notFound (email : String)
  | found (data : Friend)
deriving Repr, DecidableEq

/-- Handler of `GET /friends/:email`. -/
def getFriend (s : FriendStore) (email : String) : GetResp :=
  match lookupFriend s email with
  | some r => .found r
  | none => .notFound email

/-- Response of `POST /friends`: 400 for missing fields, 400 for the failed
email heuristic, 400 for a duplicate key, 201 on creation. -/
inductive CreateResp where
  | missingFields
  | invalidEmail
  | duplicate (email : String)
  | created (data : Friend)
deriving Repr, DecidableEq

/-- Handler of `POST /friends` (the version with the email format check):
requires all four fields truthy, requires the email to contain both an
at-sign and a dot (the JavaScript `email.includes` calls, expressed over the
string's character list since the sought strings are single characters),
rejects duplicate keys, then inserts at the end. -/
def createFriend (s : FriendStore) (email firstName lastName DOB : String) :
    FriendStore × CreateResp :=
  if email == "" || firstName == "" || lastName == "" || DOB == "" then
    (s, .missingFields)
  else if !(email.data.contains '@') || !(email.data.contains '.') then
    (s, .invalidEmail)
  else if (lookupFriend s email).isSome then
    (s, .duplicate email)
  else
    let r : Friend := ⟨firstName, lastName, DOB⟩
    (s ++ [(email, r)], .created r)

/-- The request body of `PUT /friends/:email`: each field optionally present. -/
structure UpdateBody where
  firstName : Option String
  lastName : Option String
  DOB : Option String
deriving Repr, DecidableEq

/-- The field-by-field update block of the PUT handler: starting from the
stored record, each provided field whose value differs from the current one
is applied and its name appended to the changed list, in source order
firstName, lastName, DOB. -/
def applyUpdates (r : Friend) (u : UpdateBody) : Friend × List String :=
  let st1 : Friend × List String :=
    match u.firstName with
    | some v => if v = r.firstName then (r, []) else ({ r with firstName := v }, ["firstName"])
    | none => (r, [])
  let st2 : Friend × List String :=
    match u.lastName with
    | some v =>
      if v = st1.1.lastName then st1 else ({ st1.1 with lastName := v }, st1.2 ++ ["lastName"])
    | none => st1
  match u.DOB with
  | some v => if v = st2.1.DOB then st2 else ({ st2.1 with DOB := v }, st2.2 ++ ["DOB"])
  | none => st2

/-- The record produced by one update call: the changed fields applied to `r`. -/
def applyChangedFields (r : Friend) (u : UpdateBody) : Friend :=
  (applyUpdates r u).1

/-- Response of `PUT /friends/:email`: 404, or 200 with the post-update record
and the `updatedFields` response property, which the source sets to
`undefined` (here `none`) when no field changed. -/
inductive UpdateResp where
  | notFound (email : String)
  | updated (data : Friend) (updatedFields : Option (List String))
deriving Repr, DecidableEq

/-- Handler of `PUT /friends/:email` (the changed-semantics version): 404 when
the key is absent; otherwise applies each provided differing field and
reports the changed names, omitting the list when it is empty. -/
def updateFriend (s : FriendStore) (email : String) (u : UpdateBody) :
    FriendStore × UpdateResp :=
  match lookupFriend s email with
  | none => (s, .notFound email)
  | some r =>
    let r' := (applyUpdates r u).1
    let ch := (applyUpdates r u).2
    (setStore s email r', .updated r' (if ch.length > 0 then some ch else none))

/-- Response of `DELETE /friends/:email`: 404, or 200 with the pre-deletion
record snapshot and `Object.keys(friends).length` after the deletion. -/
inductive DeleteResp where
  | notFound (email : String)
  | deleted (data : Friend) (remainingCount : Nat)
deriving Repr, DecidableEq

/-- Handler of `DELETE /friends/:email` (the version with `remainingCount`):
404 when the key is absent; otherwise snapshots the record, removes the key,
and reports the remaining key count. -/
def deleteFriend (s : FriendStore) (email : String) : FriendStore × DeleteResp :=
  match lookupFriend s email with
  | none => (s, .notFound email)
  | some r =>
    let s' := removeFriend s email
    (s', .deleted r (s'.map Prod.fst).length)

/-- The friend-store states reachable from the initial store through the
mutating handlers. -/
inductive Reachable : FriendStore → Prop where
  | init : Reachable initFriends
  | create (s : FriendStore) (email firstName lastName DOB : String) :
      Reachable s → Reachable (createFriend s email firstName lastName DOB).1
  | update (s : FriendStore) (email : String) (u : UpdateBody) :
      Reachable s → Reachable (updateFriend s email u).1
  | del (s : FriendStore) (email : String) :
      Reachable s → Reachable (deleteFriend s email).1

/-- A registered user, as pushed onto the `users` array. -/
structure User where
  username : String
  password : String
  createdAt : Nat
deriving Repr, DecidableEq

/-- The `doesExist` helper: true iff some stored user has that exact username. -/
def doesExist (users : List User) (username : String) : Bool :=
  users.any (fun u => u.username == username)

/-- The `authenticatedUser` helper: true iff some stored user matches both
username and password exactly. -/
def authenticatedUser (users : List User) (username password : String) : Bool :=
  users.any (fun u => u.username == username && u.password == password)

/-- Response of `POST /register`: 400 for missing fields, 409 for a duplicate
username, 201 on success. -/
inductive RegisterResp where
  | missingFields
  | usernameExists
  | registered
deriving Repr, DecidableEq

/-- Handler of `POST /register`: validates presence, rejects an existing
username, otherwise appends the new user with the current timestamp. The
returned list is the post-request `users` array. -/
def registerUser (users : List User) (username password : String) (now : Nat) :
    List User × RegisterResp :=
  if username == "" || password == "" then (users, .missingFields)
  else if doesExist users username then (users, .usernameExists)
  else (users ++ [⟨username, password, now⟩], .registered)

/-- A signed token, as produced by `jwt.sign`: the signed claims plus the
secret it was signed with (standing for the signature) and the expiry time. -/
structure Token where
  username : String
  data : String
  secret : String
  exp : Nat
deriving Repr, DecidableEq

/-- The call `jwt.sign({username, data}, secret, {expiresIn: ttl})`. -/
def jwtSign (username data secret : String) (now ttl : Nat) : Token :=
  ⟨username, data, secret, now + ttl⟩

/-- The decoded payload handed to the `jwt.verify` callback on success. -/
structure Decoded where
  username : String
  data : String
deriving Repr, DecidableEq

/-- Modelled from the spec: the `jwt.verify(token, secret)` call of the
external jsonwebtoken library, which is not part of this repository —
"verifies signature and expiry", failing "if the signature does not match,
or if `now > expiresAt`"; otherwise it yields the signed claims. -/
def jwtVerify (t : Token) (secret : String) (now : Nat) : Option Decoded :=
  if t.secret == secret && now ≤ t.exp then some ⟨t.username, t.data⟩ else none

/-- The `req.session.authorization` value stored by a successful login. -/
structure SessionAuth where
  accessToken : Token
  username : String
deriving Repr, DecidableEq

/-- Response of `POST /login`: 400 for missing fields, 401 for bad
credentials, 200 with the session authorization value stored. -/
inductive LoginResp where
  | missingFields
  | invalidCredentials
  | loggedIn (auth : SessionAuth)
deriving Repr, DecidableEq

/-- Handler of `POST /login`: validates presence, authenticates, then signs a
one-hour token whose `data` claim is the submitted password and stores it in
the session together with the username. -/
def loginUser (users : List User) (username password : String) (now : Nat) :
    LoginResp :=
  if username == "" || password == "" then .missingFields
  else if !(authenticatedUser users username password) then .invalidCredentials
  else .loggedIn ⟨jwtSign username password "access" now 3600, username⟩

/-- The `req.user` value the middleware attaches before calling `next()`. -/
structure ReqUser where
  username : String
  data : String
deriving Repr, DecidableEq

/-- Outcome of the `/friends` middleware: 401 without a session, 403 when
verification fails, or the request proceeds to the router with `req.user` set. -/
inductive AuthOutcome where
  | unauthorized
  | forbidden
  | proceed (user : ReqUser)
deriving Repr, DecidableEq

/-- The `authMiddleware` guarding `/friends`: requires
`req.session.authorization`, verifies its token against the fixed secret
"access", and on success attaches the session's username and the decoded
`data` claim to the request. -/
def authMiddleware (session : Option SessionAuth) (now : Nat) : AuthOutcome :=
  match session with
  | none => .unauthorized
  | some a =>
    match jwtVerify a.accessToken "access" now with
    | none => .forbidden
    | some decoded => .proceed ⟨a.username, decoded.data⟩

/-! ## Helper lemmas about the store operations -/

theorem lookupFriend_eq_none_iff {s : FriendStore} {email : String} :
    lookupFriend s email = none ↔ ∀ p ∈ s, p.1 ≠ email := by
  induction s with
  | nil => simp [lookupFriend]
  | cons p t ih => by_cases hp : p.1 = email <;> simp [lookupFriend, hp, ih]

theorem not_mem_keys_of_lookup_none {s : FriendStore} {email : String}
    (h : lookupFriend s email = none) : email ∉ s.map Prod.fst := by
  intro hmem
  rcases List.mem_map.mp hmem with ⟨p, hp, hp1⟩
  exact (lookupFriend_eq_none_iff.mp h p hp) hp1

theorem lookupFriend_append_self {s : FriendStore} {email : String} {r : Friend}
    (h : lookupFriend s email = none) :
    lookupFriend (s ++ [(email, r)]) email = some r := by
  induction s with
  | nil => simp [lookupFriend]
  | cons p t ih =>
    by_cases hp : p.1 = email
    · simp [lookupFriend, hp] at h
    · simp only [lookupFriend, hp] at h
      simp only [List.cons_append, lookupFriend, hp, if_false]
      exact ih h

theorem keys_setStore (s : FriendStore) (email : String) (r : Friend) :
    (setStore s email r).map Prod.fst = s.map Prod.fst := by
  induction s with
  | nil => rfl
  | cons p t ih => by_cases hp : p.1 = email <;> simp [setStore, hp] at ih ⊢ <;> exact ih

theorem lookupFriend_setStore_self {s : FriendStore} {email : String} {r r' : Friend}
    (h : lookupFriend s email = some r) :
    lookupFriend (setStore s email r') email = some r' := by
  induction s with
  | nil => simp [lookupFriend] at h
  | cons p t ih =>
    by_cases hp : p.1 = email
    · simp [setStore, lookupFriend, hp]
    · simp only [lookupFriend, hp, if_false] at h
      simp only [setStore, List.map_cons, if_neg hp, lookupFriend, hp, if_false]
      exact ih h

theorem lookupFriend_setStore_ne {s : FriendStore} {email e2 : String} {r' : Friend}
    (h : e2 ≠ email) :
    lookupFriend (setStore s email r') e2 = lookupFriend s e2 := by
  induction s with
  | nil => rfl
  | cons p t ih =>
    by_cases hp : p.1 = email
    · have hs : setStore (p :: t) email r' = (p.1, r') :: setStore t email r' := by
        simp [setStore, hp]
      have hne : p.1 ≠ e2 := fun hc => h (hc.symm.trans hp)
      rw [hs]
      simp [lookupFriend, hne, ih]
    · have hs : setStore (p :: t) email r' = p :: setStore t email r' := by
        simp [setStore, hp]
      rw [hs]
      simp [lookupFriend, ih]

theorem lookupFriend_removeFriend_self (s : FriendStore) (email : String) :
    lookupFriend (removeFriend s email) email = none := by
  induction s with
  | nil => rfl
  | cons p t ih =>
    by_cases hp : p.1 = email
    · simpa [removeFriend, List.filter_cons, hp] using ih
    · simpa [removeFriend, List.filter_cons, lookupFriend, hp] using ih

theorem removeFriend_eq_self {s : FriendStore} {email : String}
    (h : lookupFriend s email = none) : removeFriend s email = s := by
  induction s with
  | nil => rfl
  | cons p t ih =>
    by_cases hp : p.1 = email
    · simp [lookupFriend, hp] at h
    · simp only [lookupFriend, hp, if_false] at h
      simp [removeFriend, List.filter_cons, hp] at ih ⊢
      exact ih h

theorem createFriend_eq_of_created {s : FriendStore} {email f l d : String} {r : Friend}
    (h : (createFriend s email f l d).2 = CreateResp.created r) :
    r = ⟨f, l, d⟩ ∧ lookupFriend s email = none ∧
      (createFriend s email f l d).1 = s ++ [(email, ⟨f, l, d⟩)] := by
  revert h
  unfold createFriend
  split_ifs with h1 h2 h3
  · intro h; exact absurd h (by simp)
  · intro h; exact absurd h (by simp)
  · intro h; exact absurd h (by simp)
  · intro h
    have hr : Friend.mk f l d = r := by simpa using h
    exact ⟨hr.symm, Option.not_isSome_iff_eq_none.mp h3, rfl⟩

theorem applyUpdates_record (r : Friend) (u : UpdateBody) :
    (applyUpdates r u).1 =
      ⟨u.firstName.getD r.firstName, u.lastName.getD r.lastName, u.DOB.getD r.DOB⟩ := by
  rcases u with ⟨uf, ul, ud⟩
  rcases r with ⟨rf, rl, rd⟩
  cases uf <;> cases ul <;> cases ud <;>
    simp only [applyUpdates, Option.getD_some, Option.getD_none] <;>
    split_ifs <;> simp_all

theorem applyUpdates_changed (r : Friend) (u : UpdateBody) :
    ("firstName" ∈ (applyUpdates r u).2 ↔ ∃ v, u.firstName = some v ∧ v ≠ r.firstName) ∧
    ("lastName" ∈ (applyUpdates r u).2 ↔ ∃ v, u.lastName = some v ∧ v ≠ r.lastName) ∧
    ("DOB" ∈ (applyUpdates r u).2 ↔ ∃ v, u.DOB = some v ∧ v ≠ r.DOB) := by
  rcases u with ⟨uf, ul, ud⟩
  rcases r with ⟨rf, rl, rd⟩
  cases uf <;> cases ul <;> cases ud <;>
    simp only [applyUpdates] <;> (try split_ifs) <;> simp_all

theorem lookupFriend_updateFriend_self {s : FriendStore} {email : String}
    {u : UpdateBody} {r : Friend} (h : lookupFriend s email = some r) :
    lookupFriend (updateFriend s email u).1 email = some (applyChangedFields r u) := by
  simp only [updateFriend, h, applyChangedFields]
  exact lookupFriend_setStore_self h

theorem keys_removeFriend_sublist (s : FriendStore) (email : String) :
    ((removeFriend s email).map Prod.fst).Sublist (s.map Prod.fst) :=
  List.Sublist.map Prod.fst (List.filter_sublist s)

theorem reachable_keys_nodup {s : FriendStore} (h : Reachable s) :
    (s.map Prod.fst).Nodup := by
  induction h with
  | init => decide
  | create s email f l d _ ih =>
    revert ih
    unfold createFriend
    split_ifs with h1 h2 h3
    · exact id
    · exact id
    · exact id
    · intro ih
      show ((s ++ [(email, (⟨f, l, d⟩ : Friend))]).map Prod.fst).Nodup
      simp only [List.map_append, List.map_cons, List.map_nil]
      rw [List.nodup_append]
      refine ⟨ih, List.nodup_singleton _, ?_⟩
      intro a ha hb
      rw [List.mem_singleton.mp hb] at ha
      exact not_mem_keys_of_lookup_none (Option.not_isSome_iff_eq_none.mp h3) ha
  | update s email u _ ih =>
    cases hm : lookupFriend s email with
    | none => simpa [updateFriend, hm] using ih
    | some r => simpa [updateFriend, hm, keys_setStore] using ih
  | del s email _ ih =>
    cases hm : lookupFriend s email with
    | none => simpa [deleteFriend, hm] using ih
    | some r =>
      have hgoal : ((removeFriend s email).map Prod.fst).Nodup :=
        List.Nodup.sublist (keys_removeFriend_sublist s email) ih
      simpa [deleteFriend, hm] using hgoal

/-! ## Claim theorems -/

/-- C9: the friend store does not start empty — at process start it holds
exactly the three seeded records keyed johnsmith@gmail.com,
annasmith@gmail.com and peterjones@gmail.com, so the first listAll returns
count 3 and a create with one of those emails fails as a duplicate. -/
theorem initial_store_spec :
    initFriends.map Prod.fst =
      ["johnsmith@gmail.com", "annasmith@gmail.com", "peterjones@gmail.com"] ∧
    (listAll initFriends).count = 3 ∧
    (createFriend initFriends "johnsmith@gmail.com" "John" "Doe" "22-12-1990").2 =
      CreateResp.duplicate "johnsmith@gmail.com" := by
  refine ⟨rfl, rfl, by decide⟩

/-- C2: the gate on the protected path answers Unauthorized when the session
holds no authorization (and the handler is never reached), Forbidden when the
session's token fails verification against the fixed secret, and otherwise
attaches the session username and decoded payload and lets the request
proceed. -/
theorem auth_gate_spec (session : Option SessionAuth) (now : Nat) :
    (session = none → authMiddleware session now = AuthOutcome.unauthorized ∧
      ∀ u2 : ReqUser, authMiddleware session now ≠ AuthOutcome.proceed u2) ∧
    (∀ a, session = some a → jwtVerify a.accessToken "access" now = none →
      authMiddleware session now = AuthOutcome.forbidden ∧
      ∀ u2 : ReqUser, authMiddleware session now ≠ AuthOutcome.proceed u2) ∧
    (∀ a dec, session = some a → jwtVerify a.accessToken "access" now = some dec →
      authMiddleware session now = AuthOutcome.proceed ⟨a.username, dec.data⟩) := by
  refine ⟨?_, ?_, ?_⟩
  · rintro rfl
    exact ⟨rfl, fun u2 h => by cases h⟩
  · rintro a rfl hv
    constructor
    · simp [authMiddleware, hv]
    · intro u2
      simp [authMiddleware, hv]
  · rintro a dec rfl hv
    simp [authMiddleware, hv]

theorem auth_gate_spec_witness :
    authMiddleware none 0 = AuthOutcome.unauthorized ∧
    authMiddleware (some ⟨⟨"u", "p", "bogus", 100⟩, "u"⟩) 50 = AuthOutcome.forbidden ∧
    authMiddleware (some ⟨⟨"u", "p", "access", 100⟩, "u"⟩) 50 =
      AuthOutcome.proceed ⟨"u", "p"⟩ := by
  refine ⟨((auth_gate_spec none 0).1 rfl).1, ?_, ?_⟩
  · exact ((auth_gate_spec (some ⟨⟨"u", "p", "bogus", 100⟩, "u"⟩) 50).2.1
      ⟨⟨"u", "p", "bogus", 100⟩, "u"⟩ rfl (by decide)).1
  · exact (auth_gate_spec (some ⟨⟨"u", "p", "access", 100⟩, "u"⟩) 50).2.2
      ⟨⟨"u", "p", "access", 100⟩, "u"⟩ ⟨"u", "p"⟩ rfl (by decide)

/-- C3: register fails with missing-fields (400) when either field is empty,
with username-exists (409) when the username is taken, and otherwise appends
exactly one user with the current timestamp; a second registration of the
same username fails with username-exists and leaves the array unchanged. -/
theorem register_spec (users : List User) (username password : String) (now : Nat) :
    ((username = "" ∨ password = "") →
      registerUser users username password now = (users, RegisterResp.missingFields)) ∧
    (username ≠ "" → password ≠ "" → doesExist users username = true →
      registerUser users username password now = (users, RegisterResp.usernameExists)) ∧
    (username ≠ "" → password ≠ "" → doesExist users username = false →
      registerUser users username password now =
        (users ++ [⟨username, password, now⟩], RegisterResp.registered)) ∧
    (∀ users2 pw2 now2, pw2 ≠ "" →
      registerUser users username password now = (users2, RegisterResp.registered) →
      registerUser users2 username pw2 now2 = (users2, RegisterResp.usernameExists)) := by
  refine ⟨?_, ?_, ?_, ?_⟩
  · rintro (h | h) <;> simp [registerUser, h]
  · intro h1 h2 h3
    simp [registerUser, h1, h2, h3]
  · intro h1 h2 h3
    simp [registerUser, h1, h2, h3]
  · intro users2 pw2 now2 hpw2 hreg
    by_cases h1 : username = ""
    · simp [registerUser, h1] at hreg
    · by_cases h2 : password = ""
      · simp [registerUser, h1, h2] at hreg
      · by_cases h3 : doesExist users username = true
        · simp [registerUser, h1, h2, h3] at hreg
        · simp only [registerUser, h1, h2] at hreg
          rw [if_neg (by simp [h1, h2]), if_neg (by simp_all)] at hreg
          obtain ⟨hu, -⟩ := Prod.mk.injEq .. ▸ hreg
          subst hu
          have hde : doesExist (users ++ [⟨username, password, now⟩]) username = true := by
            simp [doesExist]
          simp [registerUser, h1, hpw2, hde]

theorem register_spec_witness :
    registerUser [] "alice" "pw" 7 = ([⟨"alice", "pw", 7⟩], RegisterResp.registered) ∧
    registerUser [⟨"alice", "pw", 7⟩] "alice" "other" 9 =
      ([⟨"alice", "pw", 7⟩], RegisterResp.usernameExists) := by
  constructor
  · exact (register_spec [] "alice" "pw" 7).2.2.1 (by decide) (by decide) (by decide)
  · exact (register_spec [] "alice" "pw" 7).2.2.2 [⟨"alice", "pw", 7⟩] "other" 9
      (by decide) ((register_spec [] "alice" "pw" 7).2.2.1 (by decide) (by decide) (by decide))

/-- C10: a successful login signs the submitted cleartext password into the
token's data claim, and every authorized protected request attaches that
password to the request context as the identity payload. -/
theorem login_token_payload (users : List User) (username password : String)
    (now : Nat) (auth : SessionAuth)
    (h : loginUser users username password now = LoginResp.loggedIn auth) :
    auth.accessToken.data = password ∧
    ∀ now2 dec, jwtVerify auth.accessToken "access" now2 = some dec →
      authMiddleware (some auth) now2 = AuthOutcome.proceed ⟨auth.username, password⟩ := by
  revert h
  unfold loginUser
  split_ifs with h1 h2
  · intro h; exact absurd h (by simp)
  · intro h; exact absurd h (by simp)
  · intro h
    cases h
    refine ⟨rfl, ?_⟩
    intro now2 dec hv
    have hd : dec = ⟨username, password⟩ := by
      simp only [jwtVerify, jwtSign] at hv
      split at hv
      · injection hv with h'
        exact h'.symm
      · cases hv
    simp [authMiddleware, hv, hd]

theorem login_token_payload_witness :
    loginUser [⟨"alice", "pw", 7⟩] "alice" "pw" 0 =
      LoginResp.loggedIn ⟨⟨"alice", "pw", "access", 3600⟩, "alice"⟩ ∧
    authMiddleware (some ⟨⟨"alice", "pw", "access", 3600⟩, "alice"⟩) 10 =
      AuthOutcome.proceed ⟨"alice", "pw"⟩ := by
  constructor
  · decide
  · exact (login_token_payload [⟨"alice", "pw", 7⟩] "alice" "pw" 0
      ⟨⟨"alice", "pw", "access", 3600⟩, "alice"⟩ (by decide)).2 10 ⟨"alice", "pw"⟩ (by decide)

/-- C4: with all four fields non-empty, create accepts the email exactly when
it contains both an at-sign and a dot, rejecting it as invalid input
otherwise; no stricter grammar is enforced — any such non-duplicate email is
inserted. -/
theorem create_email_heuristic (s : FriendStore) (email f l d : String)
    (he : email ≠ "") (hf : f ≠ "") (hl : l ≠ "") (hd : d ≠ "") :
    ((createFriend s email f l d).2 = CreateResp.invalidEmail ↔
      ¬('@' ∈ email.data ∧ '.' ∈ email.data)) ∧
    ('@' ∈ email.data → '.' ∈ email.data →
      lookupFriend s email = none →
      createFriend s email f l d =
        (s ++ [(email, ⟨f, l, d⟩)], CreateResp.created ⟨f, l, d⟩)) := by
  have hc1 : (email == "" || f == "" || l == "" || d == "") = false := by
    simp [he, hf, hl, hd]
  constructor
  · by_cases hat : '@' ∈ email.data <;> by_cases hdot : '.' ∈ email.data
    · cases hs : (lookupFriend s email).isSome <;>
        simp [createFriend, hc1, hat, hdot, hs]
    · simp [createFriend, hc1, hat, hdot]
    · simp [createFriend, hc1, hat, hdot]
    · simp [createFriend, hc1, hat, hdot]
  · intro hat hdot hnone
    simp [createFriend, hc1, hat, hdot, hnone]

theorem create_email_heuristic_witness :
    (createFriend [] "nodot@x" "A" "B" "C").2 = CreateResp.invalidEmail ∧
    createFriend [] "a@b.com" "A" "B" "01-01-2000" =
      ([("a@b.com", ⟨"A", "B", "01-01-2000"⟩)],
        CreateResp.created ⟨"A", "B", "01-01-2000"⟩) := by
  constructor
  · exact (create_email_heuristic [] "nodot@x" "A" "B" "C" (by decide) (by decide)
      (by decide) (by decide)).1.mpr (by decide)
  · exact (create_email_heuristic [] "a@b.com" "A" "B" "01-01-2000" (by decide) (by decide)
      (by decide) (by decide)).2 (by decide) (by decide) rfl

/-- C5: delete answers 404 and leaves the store unchanged when the email is
absent; otherwise it removes the key, returns the pre-deletion record
snapshot together with the post-deletion key count, and a subsequent get of
that email answers 404. -/
theorem delete_spec (s : FriendStore) (email : String) :
    (lookupFriend s email = none →
      deleteFriend s email = (s, DeleteResp.notFound email)) ∧
    (∀ r, lookupFriend s email = some r →
      (deleteFriend s email).2 =
        DeleteResp.deleted r (listAll (deleteFriend s email).1).count ∧
      lookupFriend (deleteFriend s email).1 email = none ∧
      getFriend (deleteFriend s email).1 email = GetResp.notFound email) := by
  constructor
  · intro h
    simp [deleteFriend, h]
  · intro r h
    refine ⟨?_, ?_, ?_⟩
    · simp [deleteFriend, h, listAll]
    · simp [deleteFriend, h, lookupFriend_removeFriend_self]
    · simp [getFriend, deleteFriend, h, lookupFriend_removeFriend_self]

theorem delete_spec_witness :
    deleteFriend initFriends "nosuch@x.com" =
      (initFriends, DeleteResp.notFound "nosuch@x.com") ∧
    (deleteFriend initFriends "annasmith@gmail.com").2 =
      DeleteResp.deleted ⟨"Anna", "Smith", "02-07-1983"⟩ 2 ∧
    getFriend (deleteFriend initFriends "annasmith@gmail.com").1 "annasmith@gmail.com" =
      GetResp.notFound "annasmith@gmail.com" := by
  refine ⟨(delete_spec initFriends "nosuch@x.com").1 (by decide), ?_, ?_⟩
  · exact (((delete_spec initFriends "annasmith@gmail.com").2
      ⟨"Anna", "Smith", "02-07-1983"⟩ (by decide)).1).trans (by decide)
  · exact ((delete_spec initFriends "annasmith@gmail.com").2
      ⟨"Anna", "Smith", "02-07-1983"⟩ (by decide)).2.2

/-- C1 counterexample: an update whose only provided field equals the stored
value answers 200 with the updatedFields response property omitted (`none`),
not present-and-empty (`some []`) as the claim states. -/
theorem update_noop_fields_absent :
    (updateFriend initFriends "johnsmith@gmail.com" ⟨some "John", none, none⟩).2 =
      UpdateResp.updated ⟨"John", "Doe", "22-12-1990"⟩ none ∧
    UpdateResp.updated (⟨"John", "Doe", "22-12-1990"⟩ : Friend) none ≠
      UpdateResp.updated ⟨"John", "Doe", "22-12-1990"⟩ (some ([] : List String)) := by
  exact ⟨by decide, by decide⟩

/-- C1 (amended): for every stored record and update call on its email, each
of firstName, lastName, DOB present in the body is applied and recorded as
changed exactly when the incoming value differs from the stored one; an
equal-valued provided field is neither re-applied nor recorded; and the
response's changed-field list is omitted (absent, not empty) when nothing
differs, present exactly when at least one field changed. -/
theorem update_changed_semantics (s : FriendStore) (email : String) (u : UpdateBody)
    (r : Friend) (h : lookupFriend s email = some r) :
    (updateFriend s email u).2 = UpdateResp.updated
      ⟨u.firstName.getD r.firstName, u.lastName.getD r.lastName, u.DOB.getD r.DOB⟩
      (if (applyUpdates r u).2 = [] then none else some (applyUpdates r u).2) ∧
    ("firstName" ∈ (applyUpdates r u).2 ↔ ∃ v, u.firstName = some v ∧ v ≠ r.firstName) ∧
    ("lastName" ∈ (applyUpdates r u).2 ↔ ∃ v, u.lastName = some v ∧ v ≠ r.lastName) ∧
    ("DOB" ∈ (applyUpdates r u).2 ↔ ∃ v, u.DOB = some v ∧ v ≠ r.DOB) := by
  refine ⟨?_, (applyUpdates_changed r u).1, (applyUpdates_changed r u).2.1,
    (applyUpdates_changed r u).2.2⟩
  simp only [updateFriend, h]
  rw [applyUpdates_record]
  congr 1
  cases hch : (applyUpdates r u).2 with
  | nil => simp
  | cons a t => simp

theorem update_changed_semantics_witness :
    (updateFriend initFriends "johnsmith@gmail.com" ⟨some "Zed", none, none⟩).2 =
      UpdateResp.updated ⟨"Zed", "Doe", "22-12-1990"⟩ (some ["firstName"]) := by
  have h := (update_changed_semantics initFriends "johnsmith@gmail.com"
    ⟨some "Zed", none, none⟩ ⟨"John", "Doe", "22-12-1990"⟩ (by decide)).1
  exact h.trans (by decide)

/-- C8: an update of an existing record leaves every field not provided in the
body at its prior value and leaves every record stored under another email
completely unchanged. -/
theorem update_frame_spec (s : FriendStore) (email : String) (u : UpdateBody)
    (r : Friend) (h : lookupFriend s email = some r) :
    ∀ s2 r2 ch, updateFriend s email u = (s2, UpdateResp.updated r2 ch) →
      (u.firstName = none → r2.firstName = r.firstName) ∧
      (u.lastName = none → r2.lastName = r.lastName) ∧
      (u.DOB = none → r2.DOB = r.DOB) ∧
      ∀ e2, e2 ≠ email → lookupFriend s2 e2 = lookupFriend s e2 := by
  intro s2 r2 ch hu
  simp only [updateFriend, h] at hu
  cases hu
  refine ⟨?_, ?_, ?_, ?_⟩
  · intro hn; simp [applyUpdates_record, hn]
  · intro hn; simp [applyUpdates_record, hn]
  · intro hn; simp [applyUpdates_record, hn]
  · intro e2 hne
    exact lookupFriend_setStore_ne hne

theorem update_frame_spec_witness :
    lookupFriend (updateFriend initFriends "johnsmith@gmail.com"
        ⟨some "Zed", none, none⟩).1 "annasmith@gmail.com" =
      some ⟨"Anna", "Smith", "02-07-1983"⟩ := by
  have h := (update_frame_spec initFriends "johnsmith@gmail.com" ⟨some "Zed", none, none⟩
    ⟨"John", "Doe", "22-12-1990"⟩ (by decide)
    (updateFriend initFriends "johnsmith@gmail.com" ⟨some "Zed", none, none⟩).1
    ⟨"Zed", "Doe", "22-12-1990"⟩ (some ["firstName"]) (by decide)).2.2.2
  rw [h "annasmith@gmail.com" (by decide)]
  decide

theorem lookupFriend_foldl_update (email : String) :
    ∀ (us : List UpdateBody) (st : FriendStore) (r : Friend),
      lookupFriend st email = some r →
      lookupFriend (us.foldl (fun st2 u => (updateFriend st2 email u).1) st) email =
        some (us.foldl applyChangedFields r) := by
  intro us
  induction us with
  | nil =>
    intro st r hr
    simpa using hr
  | cons u t ih =>
    intro st r hr
    simp only [List.foldl_cons]
    exact ih _ _ (lookupFriend_updateFriend_self hr)

/-- C6: after a successful create and any finite sequence of updates on that
email, get returns exactly the created record with each update's
actually-changed fields applied in order. -/
theorem create_update_get_roundtrip (s : FriendStore) (email f l d : String)
    (us : List UpdateBody) (r : Friend)
    (h : (createFriend s email f l d).2 = CreateResp.created r) :
    getFriend (us.foldl (fun st u => (updateFriend st email u).1)
        (createFriend s email f l d).1) email =
      GetResp.found (us.foldl applyChangedFields r) := by
  obtain ⟨rfl, hnone, hstore⟩ := createFriend_eq_of_created h
  rw [hstore]
  have h0 : lookupFriend (s ++ [(email, (⟨f, l, d⟩ : Friend))]) email = some ⟨f, l, d⟩ :=
    lookupFriend_append_self hnone
  have hfin := lookupFriend_foldl_update email us _ _ h0
  simp [getFriend, hfin]

theorem create_update_get_roundtrip_witness :
    getFriend ([⟨some "Zed", none, none⟩, ⟨none, none, some "02-02-2002"⟩].foldl
        (fun st u => (updateFriend st "a@b.com" u).1)
        (createFriend initFriends "a@b.com" "A" "B" "01-01-2000").1) "a@b.com" =
      GetResp.found ⟨"Zed", "B", "02-02-2002"⟩ := by
  have h := create_update_get_roundtrip initFriends "a@b.com" "A" "B" "01-01-2000"
    [⟨some "Zed", none, none⟩, ⟨none, none, some "02-02-2002"⟩] ⟨"A", "B", "01-01-2000"⟩
    (by decide)
  exact h.trans (by decide)

/-- C7: in every reachable store state listAll succeeds with a count equal to
the number of distinct keys present, and a successful create followed by a
delete of the same email restores the count to its value before the create. -/
theorem listAll_count_spec (s : FriendStore) (h : Reachable s) :
    (listAll s).count = (s.map Prod.fst).dedup.length ∧
    ∀ email f l d r, (createFriend s email f l d).2 = CreateResp.created r →
      (listAll (deleteFriend (createFriend s email f l d).1 email).1).count =
        (listAll s).count := by
  constructor
  · have hn := reachable_keys_nodup h
    rw [List.dedup_eq_self.mpr hn]
    rfl
  · intro email f l d r hc
    obtain ⟨rfl, hnone, hstore⟩ := createFriend_eq_of_created hc
    rw [hstore]
    have hl2 : lookupFriend (s ++ [(email, (⟨f, l, d⟩ : Friend))]) email =
        some ⟨f, l, d⟩ := lookupFriend_append_self hnone
    have hrm : removeFriend (s ++ [(email, (⟨f, l, d⟩ : Friend))]) email = s := by
      have h1 : removeFriend s email = s := removeFriend_eq_self hnone
      unfold removeFriend at h1 ⊢
      rw [List.filter_append, h1]
      simp
    simp [deleteFriend, hl2, hrm, listAll]

theorem listAll_count_spec_witness :
    (listAll initFriends).count = (initFriends.map Prod.fst).dedup.length ∧
    (listAll (deleteFriend (createFriend initFriends "a@b.com" "A" "B" "01-01-2000").1
        "a@b.com").1).count = (listAll initFriends).count := by
  refine ⟨(listAll_count_spec initFriends Reachable.init).1, ?_⟩
  exact (listAll_count_spec initFriends Reachable.init).2 "a@b.com" "A" "B" "01-01-2000"
    ⟨"A", "B", "01-01-2000"⟩ (by decide)
